/-
Verification of the Mergington High School activities backend
(src/app.py) against its specification.

The store is modelled as two tables held in lists (row order is
insertion order, matching the sqlite-backed SQLModel store), plus an
autoincrement counter for the Participant surrogate key.  The four
service operations are translated directly from the FastAPI handlers:
fallible handlers return `Except HTTPException`, success carrying the
new store and the confirmation message.
-/
import Mathlib

namespace App

/-- Row of the `participant` table (`class Participant` in app.py):
surrogate id, student email, and foreign key to `activity.name`. -/
structure Participant where
  id : Nat
  email : String
  activity_name : String
deriving Repr, DecidableEq

/-- Row of the `activity` table (`class Activity` in app.py). -/
structure Activity where
  name : String
  description : String
  schedule : String
  max_participants : Int
deriving Repr, DecidableEq

/-- The relational store: the two tables plus the autoincrement counter
used to assign `Participant.id`. -/
structure Store where
  activities : List Activity
  participants : List Participant
  nextId : Nat
deriving Repr, DecidableEq

/-- `session.get(Activity, activity_name)`: primary-key lookup. -/
def getActivity (s : Store) (activity_name : String) : Option Activity :=
  s.activities.find? (fun a => a.name == activity_name)

/-- Row predicate used by both signup and unregister:
`(Participant.activity_name == activity_name) & (Participant.email == email)`. -/
def matchesPE (activity_name email : String) (p : Participant) : Bool :=
  p.activity_name == activity_name && p.email == email

/-- `session.exec(select(Participant).where(...)).first()`. -/
def findParticipant (s : Store) (activity_name email : String) : Option Participant :=
  s.participants.find? (matchesPE activity_name email)

/-- Error signal of a handler (`HTTPException(status_code, detail)`). -/
structure HTTPException where
  status_code : Nat
  detail : String
deriving Repr, DecidableEq

/-- `POST /activities/{activity_name}/signup` (`signup_for_activity`):
404 if the activity is unknown, 400 if the pair is already registered,
otherwise insert one Participant row and return the confirmation. -/
def signup_for_activity (s : Store) (activity_name email : String) :
    Except HTTPException (Store × String) :=
  match getActivity s activity_name with
  | none => .error ⟨404, "Activity not found"⟩
  | some _ =>
    match findParticipant s activity_name email with
    | some _ => .error ⟨400, "Student is already signed up"⟩
    | none =>
      .ok ({ s with
              participants := s.participants ++ [⟨s.nextId, email, activity_name⟩],
              nextId := s.nextId + 1 },
            "Signed up " ++ email ++ " for " ++ activity_name)

/-- `DELETE /activities/{activity_name}/unregister`
(`unregister_from_activity`): 404 if the activity is unknown, 400 if no
matching row exists, otherwise delete the row returned by `.first()`
(the first matching row in table order). -/
def unregister_from_activity (s : Store) (activity_name email : String) :
    Except HTTPException (Store × String) :=
  match getActivity s activity_name with
  | none => .error ⟨404, "Activity not found"⟩
  | some _ =>
    match findParticipant s activity_name email with
    | none => .error ⟨400, "Student is not signed up for this activity"⟩
    | some _ =>
      .ok ({ s with
              participants := s.participants.eraseP (matchesPE activity_name email) },
            "Unregistered " ++ email ++ " from " ++ activity_name)

/-- Value side of one entry of the mapping built by `activities_as_dict`. -/
structure ActivityInfo where
  description : String
  schedule : String
  max_participants : Int
  participants : List String
deriving Repr, DecidableEq

/-- `activities_as_dict` / `GET /activities`: every Activity row, keyed
by name, with the emails of its related Participant rows
(`a.participants` is the rows whose `activity_name` equals `a.name`). -/
def activities_as_dict (s : Store) : List (String × ActivityInfo) :=
  s.activities.map (fun a =>
    (a.name,
      ⟨a.description, a.schedule, a.max_participants,
        (s.participants.filter (fun p => p.activity_name == a.name)).map
          (fun p => p.email)⟩))

/-- The seed catalog of `init_db_with_seed`: each activity with its
initial roster of participant emails, in source order. -/
def seedData : List (Activity × List String) :=
  [ (⟨"Chess Club",
      "Learn strategies and compete in chess tournaments",
      "Fridays, 3:30 PM - 5:00 PM", 12⟩,
      ["michael@mergington.edu", "daniel@mergington.edu"]),
    (⟨"Programming Class",
      "Learn programming fundamentals and build software projects",
      "Tuesdays and Thursdays, 3:30 PM - 4:30 PM", 20⟩,
      ["emma@mergington.edu", "sophia@mergington.edu"]),
    (⟨"Gym Class",
      "Physical education and sports activities",
      "Mondays, Wednesdays, Fridays, 2:00 PM - 3:00 PM", 30⟩,
      ["john@mergington.edu", "olivia@mergington.edu"]),
    (⟨"Soccer Team",
      "Join the school soccer team and compete in matches",
      "Tuesdays and Thursdays, 4:00 PM - 5:30 PM", 22⟩,
      ["liam@mergington.edu", "noah@mergington.edu"]),
    (⟨"Basketball Team",
      "Practice and play basketball with the school team",
      "Wednesdays and Fridays, 3:30 PM - 5:00 PM", 15⟩,
      ["ava@mergington.edu", "mia@mergington.edu"]),
    (⟨"Art Club",
      "Explore your creativity through painting and drawing",
      "Thursdays, 3:30 PM - 5:00 PM", 15⟩,
      ["amelia@mergington.edu", "harper@mergington.edu"]),
    (⟨"Drama Club",
      "Act, direct, and produce plays and performances",
      "Mondays and Wednesdays, 4:00 PM - 5:30 PM", 20⟩,
      ["ella@mergington.edu", "scarlett@mergington.edu"]),
    (⟨"Math Club",
      "Solve challenging problems and participate in math competitions",
      "Tuesdays, 3:30 PM - 4:30 PM", 10⟩,
      ["james@mergington.edu", "benjamin@mergington.edu"]),
    (⟨"Debate Team",
      "Develop public speaking and argumentation skills",
      "Fridays, 4:00 PM - 5:30 PM", 12⟩,
      ["charlotte@mergington.edu", "henry@mergington.edu"]) ]

/-- Inner loop of the seeding: `session.add(Participant(email=..., activity_name=name))`
for each email of one activity. -/
def addSeedParticipants (name : String) (emails : List String) (st : Store) : Store :=
  emails.foldl
    (fun st2 email =>
      { st2 with
          participants := st2.participants ++ [⟨st2.nextId, email, name⟩],
          nextId := st2.nextId + 1 })
    st

/-- Outer loop of the seeding: `session.add(a)` then its participants,
for each seed activity. -/
def seedStore (s : Store) : Store :=
  seedData.foldl
    (fun st ae =>
      addSeedParticipants ae.1.name ae.2 { st with activities := st.activities ++ [ae.1] })
    s

/-- `init_db_with_seed`: if any Activity row exists, skip; otherwise
write the seed catalog. -/
def init_db_with_seed (s : Store) : Store :=
  if s.activities.isEmpty then seedStore s else s

/-- A store with no rows (first run, before seeding). -/
def emptyStore : Store := ⟨[], [], 0⟩

/-- The seeded initial state: what `on_startup` produces on first run. -/
def initialStore : Store := init_db_with_seed emptyStore

/-- Referential integrity, as a decidable check: every Participant row's
`activity_name` is the name of some Activity row. -/
def refIntegrityB (s : Store) : Bool :=
  s.participants.all (fun p => s.activities.any (fun a => a.name == p.activity_name))

/-- Store states reachable from the seeded initial state by sequences of
the exposed operations.  Failed signups/unregisters and list-activities
calls do not change the store, so only successful mutations add states. -/
inductive Reachable : Store → Prop
  | init : Reachable initialStore
  | signup {s s' : Store} {a e m : String} :
      Reachable s → signup_for_activity s a e = .ok (s', m) → Reachable s'
  | unregister {s s' : Store} {a e m : String} :
      Reachable s → unregister_from_activity s a e = .ok (s', m) → Reachable s'

/-! ### Helper lemmas about the operations -/

theorem matchesPE_iff (A E : String) (p : Participant) :
    matchesPE A E p = true ↔ p.activity_name = A ∧ p.email = E := by
  simp [matchesPE]

theorem getActivity_eq_none_of (s : Store) (A : String)
    (h : ∀ act ∈ s.activities, act.name ≠ A) : getActivity s A = none := by
  apply List.find?_eq_none.2
  intro act hmem
  simpa using h act hmem

theorem getActivity_eq_some_of (s : Store) (A : String)
    (h : ∃ act ∈ s.activities, act.name = A) :
    ∃ act, getActivity s A = some act ∧ act ∈ s.activities ∧ act.name = A := by
  obtain ⟨act, hmem, hname⟩ := h
  have hsome : (s.activities.find? (fun a => a.name == A)).isSome = true :=
    List.find?_isSome.2 ⟨act, hmem, by simp [hname]⟩
  obtain ⟨act', hfind⟩ := Option.isSome_iff_exists.1 hsome
  refine ⟨act', hfind, List.mem_of_find?_eq_some hfind, ?_⟩
  simpa using List.find?_some hfind

theorem findParticipant_eq_none_of (s : Store) (A E : String)
    (h : ∀ p ∈ s.participants, ¬(p.activity_name = A ∧ p.email = E)) :
    findParticipant s A E = none := by
  apply List.find?_eq_none.2
  intro p hmem
  simp only [matchesPE_iff]
  exact h p hmem

theorem signup_ok_of (s : Store) (A E : String) (act : Activity)
    (h1 : getActivity s A = some act) (h2 : findParticipant s A E = none) :
    signup_for_activity s A E =
      .ok ({ s with
              participants := s.participants ++ [⟨s.nextId, E, A⟩],
              nextId := s.nextId + 1 },
            "Signed up " ++ E ++ " for " ++ A) := by
  simp [signup_for_activity, h1, h2]

theorem signup_ok_inv (s s' : Store) (A E m : String)
    (h : signup_for_activity s A E = .ok (s', m)) :
    s'.activities = s.activities ∧
    s'.participants = s.participants ++ [⟨s.nextId, E, A⟩] ∧
    s'.nextId = s.nextId + 1 ∧
    (∃ act ∈ s.activities, act.name = A) ∧
    m = "Signed up " ++ E ++ " for " ++ A := by
  unfold signup_for_activity at h
  cases hga : getActivity s A with
  | none => rw [hga] at h; exact absurd h (by simp)
  | some act =>
    rw [hga] at h
    cases hfp : findParticipant s A E with
    | some p => rw [hfp] at h; exact absurd h (by simp)
    | none =>
      rw [hfp] at h
      simp only [Except.ok.injEq, Prod.mk.injEq] at h
      obtain ⟨hs, hm⟩ := h
      have hname : act.name = A := by
        simpa using List.find?_some hga
      refine ⟨by rw [← hs], by rw [← hs], by rw [← hs],
        ⟨act, List.mem_of_find?_eq_some hga, hname⟩, hm.symm⟩

theorem unregister_ok_of (s : Store) (A E : String) (act : Activity) (p : Participant)
    (h1 : getActivity s A = some act) (h2 : findParticipant s A E = some p) :
    unregister_from_activity s A E =
      .ok ({ s with participants := s.participants.eraseP (matchesPE A E) },
            "Unregistered " ++ E ++ " from " ++ A) := by
  simp [unregister_from_activity, h1, h2]

theorem unregister_ok_inv (s s' : Store) (A E m : String)
    (h : unregister_from_activity s A E = .ok (s', m)) :
    s'.activities = s.activities ∧
    s'.participants = s.participants.eraseP (matchesPE A E) ∧
    s'.nextId = s.nextId ∧
    m = "Unregistered " ++ E ++ " from " ++ A := by
  unfold unregister_from_activity at h
  cases hga : getActivity s A with
  | none => rw [hga] at h; exact absurd h (by simp)
  | some act =>
    rw [hga] at h
    cases hfp : findParticipant s A E with
    | none => rw [hfp] at h; exact absurd h (by simp)
    | some p =>
      rw [hfp] at h
      simp only [Except.ok.injEq, Prod.mk.injEq] at h
      obtain ⟨hs, hm⟩ := h
      exact ⟨by rw [← hs], by rw [← hs], by rw [← hs], hm.symm⟩

/-! ### Claim theorems -/

/-- C1: for every store in which activity `A` exists and no Participant
row for `(A, E)` exists, signup succeeds, inserts exactly one new
Participant row with that activity name and email, returns the message
"Signed up {email} for {activity_name}", and `E` subsequently appears in
`A`'s participant list as returned by list-activities. -/
theorem C1_signup_success (s : Store) (A E : String)
    (hA : ∃ act ∈ s.activities, act.name = A)
    (hE : ∀ p ∈ s.participants, ¬(p.activity_name = A ∧ p.email = E)) :
    ∃ s', signup_for_activity s A E =
        .ok (s', "Signed up " ++ E ++ " for " ++ A) ∧
      s'.activities = s.activities ∧
      s'.participants = s.participants ++ [⟨s.nextId, E, A⟩] ∧
      ∃ info, (A, info) ∈ activities_as_dict s' ∧ E ∈ info.participants := by
  obtain ⟨act, hga, hmem, hname⟩ := getActivity_eq_some_of s A hA
  subst hname
  have hfp := findParticipant_eq_none_of s act.name E hE
  refine ⟨_, signup_ok_of s act.name E act hga hfp, rfl, rfl, ?_⟩
  simp only [activities_as_dict, List.mem_map]
  refine ⟨_, ⟨act, hmem, rfl⟩, ?_⟩
  simp [List.filter_append]

/-- C2: signup for an existing activity with an already-registered pair
fails with HTTP 400 "Student is already signed up" (in this embedding an
error result carries no store, so the state is the unchanged input); in
particular a second signup with the same pair right after a successful
one fails the same way. -/
theorem C2_duplicate_signup (s : Store) (A E : String) :
    ((∃ act ∈ s.activities, act.name = A) →
      (∃ p ∈ s.participants, p.activity_name = A ∧ p.email = E) →
      signup_for_activity s A E = .error ⟨400, "Student is already signed up"⟩) ∧
    (∀ s' m, signup_for_activity s A E = .ok (s', m) →
      signup_for_activity s' A E = .error ⟨400, "Student is already signed up"⟩) := by
  constructor
  · intro hA hp
    obtain ⟨act, hga, _, _⟩ := getActivity_eq_some_of s A hA
    obtain ⟨p, hpmem, hpa, hpe⟩ := hp
    have hps : (findParticipant s A E).isSome = true :=
      List.find?_isSome.2 ⟨p, hpmem, by simp [matchesPE, hpa, hpe]⟩
    obtain ⟨q, hfp⟩ := Option.isSome_iff_exists.1 hps
    simp [signup_for_activity, hga, hfp]
  · intro s' m h
    obtain ⟨hact, hparts, _, hA, _⟩ := signup_ok_inv s s' A E m h
    obtain ⟨act, hga, _, _⟩ := getActivity_eq_some_of s' A (hact ▸ hA)
    have hps : (findParticipant s' A E).isSome = true := by
      apply List.find?_isSome.2
      refine ⟨⟨s.nextId, E, A⟩, ?_, by simp [matchesPE]⟩
      rw [hparts]; simp
    obtain ⟨q, hfp⟩ := Option.isSome_iff_exists.1 hps
    simp [signup_for_activity, hga, hfp]

/-- C2 witness: in the seeded store, signing up an already-registered
student for Chess Club fails with 400. -/
theorem C2_duplicate_signup_witness :
    signup_for_activity initialStore "Chess Club" "michael@mergington.edu" =
      .error ⟨400, "Student is already signed up"⟩ :=
  (C2_duplicate_signup initialStore "Chess Club" "michael@mergington.edu").1
    (by decide) (by decide)

/-- C5: signup for a nonexistent activity name fails with HTTP 404
"Activity not found" for every email, regardless of any Participant rows
(the existence check runs before the duplicate-registration check); an
error result carries no store, so the state is unchanged. -/
theorem C5_signup_notfound (s : Store) (A : String)
    (hA : ∀ act ∈ s.activities, act.name ≠ A) :
    ∀ E, signup_for_activity s A E = .error ⟨404, "Activity not found"⟩ := by
  intro E
  simp [signup_for_activity, getActivity_eq_none_of s A hA]

/-- C5 witness: with no activities at all but a dangling Participant row
for ("X", "e") present, signup for "X" still reports 404 (not the
duplicate error), showing the existence check runs first. -/
theorem C5_signup_notfound_witness :
    signup_for_activity ⟨[], [⟨0, "e", "X"⟩], 1⟩ "X" "e" =
      .error ⟨404, "Activity not found"⟩ :=
  C5_signup_notfound ⟨[], [⟨0, "e", "X"⟩], 1⟩ "X" (by simp) "e"

/-- C6: unregister for an existing activity with no matching Participant
row fails with HTTP 400 "Student is not signed up for this activity"
(an error result carries no store, so the state is unchanged); and when
the activity itself is missing the result is 404 instead, i.e. the
existence check runs before the registration check. -/
theorem C6_unregister_not_registered (s : Store) (A E : String) :
    ((∃ act ∈ s.activities, act.name = A) →
      (∀ p ∈ s.participants, ¬(p.activity_name = A ∧ p.email = E)) →
      unregister_from_activity s A E =
        .error ⟨400, "Student is not signed up for this activity"⟩) ∧
    ((∀ act ∈ s.activities, act.name ≠ A) →
      unregister_from_activity s A E = .error ⟨404, "Activity not found"⟩) := by
  constructor
  · intro hA hE
    obtain ⟨act, hga, _, _⟩ := getActivity_eq_some_of s A hA
    simp [unregister_from_activity, hga, findParticipant_eq_none_of s A E hE]
  · intro hA
    simp [unregister_from_activity, getActivity_eq_none_of s A hA]

/-- C6 witness: in the seeded store, unregistering a student who never
signed up for Chess Club fails with 400. -/
theorem C6_unregister_not_registered_witness :
    unregister_from_activity initialStore "Chess Club" "nobody@mergington.edu" =
      .error ⟨400, "Student is not signed up for this activity"⟩ :=
  (C6_unregister_not_registered initialStore "Chess Club" "nobody@mergington.edu").1
    (by decide) (by decide)

/-- C9: signup never reads `max_participants`: whenever activity `A`
exists and `(A, E)` is not yet registered, signup succeeds even when the
number of Participant rows for `A` is at least `A`'s capacity. -/
theorem C9_capacity_never_checked (s : Store) (A E : String) (act : Activity)
    (hmem : act ∈ s.activities) (hname : act.name = A)
    (hE : ∀ p ∈ s.participants, ¬(p.activity_name = A ∧ p.email = E))
    (_hfull : act.max_participants ≤
      (s.participants.countP (fun p => p.activity_name == A) : Int)) :
    ∃ s', signup_for_activity s A E =
      .ok (s', "Signed up " ++ E ++ " for " ++ A) := by
  obtain ⟨act', hga, _, _⟩ := getActivity_eq_some_of s A ⟨act, hmem, hname⟩
  exact ⟨_, signup_ok_of s A E act' hga (findParticipant_eq_none_of s A E hE)⟩

/-- C9 witness: an activity with capacity 0 and 0 ≥ 0 current
participants still accepts a signup. -/
theorem C9_capacity_never_checked_witness :
    ∃ s', signup_for_activity ⟨[⟨"A", "d", "t", 0⟩], [], 0⟩ "A" "e" =
      .ok (s', "Signed up " ++ "e" ++ " for " ++ "A") :=
  C9_capacity_never_checked ⟨[⟨"A", "d", "t", 0⟩], [], 0⟩ "A" "e" ⟨"A", "d", "t", 0⟩
    (by simp) rfl (by simp) (by simp)

/-- C1 witness: a one-activity store accepts a fresh signup and the email
shows up in the listing. -/
theorem C1_signup_success_witness :
    ∃ s', signup_for_activity ⟨[⟨"A", "d", "t", 3⟩], [], 0⟩ "A" "e" =
        .ok (s', "Signed up " ++ "e" ++ " for " ++ "A") ∧
      s'.activities = (⟨[⟨"A", "d", "t", 3⟩], [], 0⟩ : Store).activities ∧
      s'.participants =
        (⟨[⟨"A", "d", "t", 3⟩], [], 0⟩ : Store).participants ++ [⟨0, "e", "A"⟩] ∧
      ∃ info, ("A", info) ∈ activities_as_dict s' ∧ "e" ∈ info.participants :=
  C1_signup_success ⟨[⟨"A", "d", "t", 3⟩], [], 0⟩ "A" "e" (by decide) (by decide)

/-- C3: list-activities has exactly the Activity names as keys, reports
each activity's stored fields, reports as participants exactly the
emails of the Participant rows whose `activity_name` matches, and maps
an empty store to the empty mapping (the operation is total: it is a
Lean function into `List`, so it never errors). -/
theorem C3_list_activities (s : Store) :
    (activities_as_dict s).map Prod.fst = s.activities.map Activity.name ∧
    (∀ act ∈ s.activities, ∃ info,
      (act.name, info) ∈ activities_as_dict s ∧
      info.description = act.description ∧
      info.schedule = act.schedule ∧
      info.max_participants = act.max_participants ∧
      ∀ e : String, e ∈ info.participants ↔
        ∃ p ∈ s.participants, p.activity_name = act.name ∧ p.email = e) ∧
    (s.activities = [] → activities_as_dict s = []) := by
  refine ⟨?_, ?_, ?_⟩
  · simp only [activities_as_dict, List.map_map]
    rfl
  · intro act hmem
    simp only [activities_as_dict, List.mem_map]
    refine ⟨_, ⟨act, hmem, rfl⟩, rfl, rfl, rfl, ?_⟩
    intro e
    simp only [List.mem_map, List.mem_filter]
    constructor
    · rintro ⟨p, ⟨hp, hpa⟩, hpe⟩
      exact ⟨p, hp, by simpa using hpa, hpe⟩
    · rintro ⟨p, hp, hpa, hpe⟩
      exact ⟨p, ⟨hp, by simp [hpa]⟩, hpe⟩
  · intro h
    simp [activities_as_dict, h]

/-- C3 witness: the empty store lists the empty mapping. -/
theorem C3_list_activities_witness :
    activities_as_dict ⟨[], [], 0⟩ = [] :=
  (C3_list_activities ⟨[], [], 0⟩).2.2 rfl

/-- C7: every state reachable from the seeded initial state through the
exposed operations keeps referential integrity: every Participant row's
`activity_name` names an existing Activity row. -/
theorem C7_referential_integrity (s : Store) (h : Reachable s) :
    refIntegrityB s = true := by
  induction h with
  | init => decide
  | @signup s₀ s' a e m hr hok ih =>
    obtain ⟨hact, hparts, _, hA, _⟩ := signup_ok_inv s₀ s' a e m hok
    obtain ⟨act, hmemact, hname⟩ := hA
    simp only [refIntegrityB, List.all_eq_true] at ih ⊢
    intro p hp
    rw [hact]
    rcases List.mem_append.1 (hparts ▸ hp) with h1 | h1
    · exact ih p h1
    · simp only [List.mem_singleton] at h1
      subst h1
      simp only [List.any_eq_true]
      exact ⟨act, hmemact, by simp [hname]⟩
  | @unregister s₀ s' a e m hr hok ih =>
    obtain ⟨hact, hparts, _, _⟩ := unregister_ok_inv s₀ s' a e m hok
    simp only [refIntegrityB, List.all_eq_true] at ih ⊢
    intro p hp
    rw [hact]
    exact ih p ((List.eraseP_sublist s₀.participants).subset (hparts ▸ hp))

/-- C7 witness: the seeded initial state itself. -/
theorem C7_referential_integrity_witness :
    refIntegrityB initialStore = true :=
  C7_referential_integrity initialStore Reachable.init

theorem addSeedParticipants_activities (n : String) (es : List String) (st : Store) :
    (addSeedParticipants n es st).activities = st.activities := by
  induction es generalizing st with
  | nil => rfl
  | cons hd tl ih =>
    show (addSeedParticipants n tl _).activities = st.activities
    rw [ih]

theorem seedFold_activities (sd : List (Activity × List String)) (st : Store) :
    (sd.foldl (fun st ae =>
        addSeedParticipants ae.1.name ae.2
          { st with activities := st.activities ++ [ae.1] }) st).activities
      = st.activities ++ sd.map Prod.fst := by
  induction sd generalizing st with
  | nil => simp
  | cons hd tl ih =>
    show (tl.foldl _
      (addSeedParticipants hd.1.name hd.2
        { st with activities := st.activities ++ [hd.1] })).activities = _
    rw [ih, addSeedParticipants_activities]
    simp

theorem seedStore_activities (s : Store) :
    (seedStore s).activities = s.activities ++ seedData.map Prod.fst :=
  seedFold_activities seedData s

/-- C8: seeding is idempotent: a store with any Activity row is returned
unchanged (no writes), and initializing twice equals initializing once,
for every starting store. -/
theorem C8_seed_idempotent (s : Store) :
    (s.activities ≠ [] → init_db_with_seed s = s) ∧
    init_db_with_seed (init_db_with_seed s) = init_db_with_seed s := by
  have hskip : ∀ t : Store, t.activities ≠ [] → init_db_with_seed t = t := by
    intro t ht
    unfold init_db_with_seed
    rw [if_neg]
    simp [List.isEmpty_iff, ht]
  refine ⟨hskip s, ?_⟩
  by_cases h : s.activities = []
  · have h1 : init_db_with_seed s = seedStore s := by
      unfold init_db_with_seed
      rw [if_pos]
      simp [List.isEmpty_iff, h]
    rw [h1]
    apply hskip
    rw [seedStore_activities, h]
    simp [seedData]
  · rw [hskip s h, hskip s h]

/-- C8 witness: initializing the already-seeded store changes nothing. -/
theorem C8_seed_idempotent_witness :
    init_db_with_seed initialStore = initialStore :=
  (C8_seed_idempotent initialStore).1 (by decide)

/-- A store holding one activity "A" and two Participant rows for the
pair ("A", "e") — per-pair uniqueness is not a schema constraint, so
such a store is expressible. -/
def dupRowStore : Store :=
  ⟨[⟨"A", "d", "t", 5⟩], [⟨0, "e", "A"⟩, ⟨1, "e", "A"⟩], 2⟩

/-- C4 counterexample: with two Participant rows for ("A", "e"),
unregister succeeds and deletes only the first matching row, so "e"
still appears in A's participant list afterwards — refuting the claim's
"E no longer appears" for arbitrary stores with a matching row. -/
theorem C4_unregister_counterexample :
    unregister_from_activity dupRowStore "A" "e" =
      .ok (⟨[⟨"A", "d", "t", 5⟩], [⟨1, "e", "A"⟩], 2⟩, "Unregistered e from A") ∧
    activities_as_dict ⟨[⟨"A", "d", "t", 5⟩], [⟨1, "e", "A"⟩], 2⟩ =
      [("A", ⟨"d", "t", 5, ["e"]⟩)] := by
  constructor <;> rfl

/-- C4 (amended): when activity `A` exists and exactly one Participant
row matches `(A, E)`, unregister succeeds, returns the confirmation
message, deletes exactly that row and no other (row count drops by one,
no matching row remains, every non-matching row is kept), and `E` no
longer appears in `A`'s participant list as returned by
list-activities. -/
theorem C4_unregister_success (s : Store) (A E : String)
    (hA : ∃ act ∈ s.activities, act.name = A)
    (h1 : s.participants.countP (matchesPE A E) = 1) :
    ∃ s', unregister_from_activity s A E =
        .ok (s', "Unregistered " ++ E ++ " from " ++ A) ∧
      s'.activities = s.activities ∧
      s'.participants.length + 1 = s.participants.length ∧
      s'.participants.countP (matchesPE A E) = 0 ∧
      s'.participants.filter (fun p => !(matchesPE A E p)) =
        s.participants.filter (fun p => !(matchesPE A E p)) ∧
      ∀ info, (A, info) ∈ activities_as_dict s' → E ∉ info.participants := by
  obtain ⟨act, hga, hmemact, hname⟩ := getActivity_eq_some_of s A hA
  have hx : ∃ p ∈ s.participants, matchesPE A E p = true :=
    List.countP_pos_iff.1 (by rw [h1]; exact Nat.one_pos)
  obtain ⟨q, hfp⟩ := Option.isSome_iff_exists.1 (List.find?_isSome.2 hx)
  obtain ⟨x, hxmem, hxp⟩ := hx
  obtain ⟨a', l₁, l₂, hl₁, hpa', heq, herase⟩ := List.exists_of_eraseP hxmem hxp
  have hc₁ : l₁.countP (matchesPE A E) = 0 := List.countP_eq_zero.2 hl₁
  have hc₂ : l₂.countP (matchesPE A E) = 0 := by
    have h1' := h1
    rw [heq] at h1'
    simp [List.countP_append, List.countP_cons, hpa', hc₁] at h1'
    exact List.countP_eq_zero.2 (fun a ha => by simp [h1' a ha])
  have hc0 : (s.participants.eraseP (matchesPE A E)).countP (matchesPE A E) = 0 := by
    rw [herase]
    simp [List.countP_append, hc₁, hc₂]
  refine ⟨_, unregister_ok_of s A E act q hga hfp, rfl, ?_, hc0, ?_, ?_⟩
  · rw [herase, heq]
    simp only [List.length_append, List.length_cons]
    omega
  · rw [herase, heq]
    simp [List.filter_append, List.filter_cons, hpa']
  · intro info hmem hEin
    simp only [activities_as_dict, List.mem_map] at hmem
    obtain ⟨act', hact'mem, hpair⟩ := hmem
    injection hpair with hn hinfo
    subst hinfo
    simp only [List.mem_map, List.mem_filter] at hEin
    obtain ⟨p, ⟨hp, hpa⟩, hpe⟩ := hEin
    have hpmatch : matchesPE A E p = true := by
      rw [matchesPE_iff]
      exact ⟨by rw [← hn]; simpa using hpa, hpe⟩
    exact absurd (List.countP_eq_zero.1 hc0 p hp) (by simp [hpmatch])

/-- C4 witness: a store with exactly one row for ("A", "e"). -/
theorem C4_unregister_success_witness :
    ∃ s', unregister_from_activity ⟨[⟨"A", "d", "t", 5⟩], [⟨0, "e", "A"⟩], 1⟩ "A" "e" =
        .ok (s', "Unregistered " ++ "e" ++ " from " ++ "A") ∧
      s'.activities = (⟨[⟨"A", "d", "t", 5⟩], [⟨0, "e", "A"⟩], 1⟩ : Store).activities ∧
      s'.participants.length + 1 =
        (⟨[⟨"A", "d", "t", 5⟩], [⟨0, "e", "A"⟩], 1⟩ : Store).participants.length ∧
      s'.participants.countP (matchesPE "A" "e") = 0 ∧
      s'.participants.filter (fun p => !(matchesPE "A" "e" p)) =
        (⟨[⟨"A", "d", "t", 5⟩], [⟨0, "e", "A"⟩], 1⟩ : Store).participants.filter
          (fun p => !(matchesPE "A" "e" p)) ∧
      ∀ info, ("A", info) ∈ activities_as_dict s' → "e" ∉ info.participants :=
  C4_unregister_success ⟨[⟨"A", "d", "t", 5⟩], [⟨0, "e", "A"⟩], 1⟩ "A" "e"
    (by decide) (by decide)

/-- C10: in a store satisfying per-pair uniqueness where activity `A`
exists and `(A, E)` is unregistered, signup followed by unregister
restores the set of (activity_name, email) pairs of the Participant
table exactly, and the Activity table is unchanged throughout. -/
theorem C10_signup_unregister_roundtrip (s : Store) (A E : String)
    (_huniq : s.participants.Pairwise
      (fun p q => ¬(p.activity_name = q.activity_name ∧ p.email = q.email)))
    (hA : ∃ act ∈ s.activities, act.name = A)
    (hE : ∀ p ∈ s.participants, ¬(p.activity_name = A ∧ p.email = E)) :
    ∃ s' s'' m₁ m₂,
      signup_for_activity s A E = .ok (s', m₁) ∧
      unregister_from_activity s' A E = .ok (s'', m₂) ∧
      s'.activities = s.activities ∧ s''.activities = s.activities ∧
      s''.participants.map (fun p => (p.activity_name, p.email)) =
        s.participants.map (fun p => (p.activity_name, p.email)) := by
  obtain ⟨act, hga, hmemact, hname⟩ := getActivity_eq_some_of s A hA
  have hfp := findParticipant_eq_none_of s A E hE
  have hsign := signup_ok_of s A E act hga hfp
  have hga' : getActivity
      { s with
          participants := s.participants ++ [⟨s.nextId, E, A⟩],
          nextId := s.nextId + 1 } A = some act := hga
  have hfp' : findParticipant
      { s with
          participants := s.participants ++ [⟨s.nextId, E, A⟩],
          nextId := s.nextId + 1 } A E = some ⟨s.nextId, E, A⟩ := by
    show (s.participants ++ [(⟨s.nextId, E, A⟩ : Participant)]).find?
      (matchesPE A E) = some (⟨s.nextId, E, A⟩ : Participant)
    have hfp2 : List.find? (matchesPE A E) s.participants = none := hfp
    rw [List.find?_append, hfp2]
    simp [matchesPE]
  have hunreg := unregister_ok_of _ A E act (⟨s.nextId, E, A⟩ : Participant) hga' hfp'
  have herase : (s.participants ++ [(⟨s.nextId, E, A⟩ : Participant)]).eraseP
      (matchesPE A E) = s.participants := by
    rw [List.eraseP_append_right]
    · simp [List.eraseP_cons, matchesPE]
    · intro b hb
      simp only [matchesPE_iff]
      exact hE b hb
  refine ⟨_, _, _, _, hsign, hunreg, rfl, ?_, ?_⟩
  · rfl
  · show (((s.participants ++ [(⟨s.nextId, E, A⟩ : Participant)]).eraseP
      (matchesPE A E)).map (fun p => (p.activity_name, p.email))) =
      s.participants.map (fun p => (p.activity_name, p.email))
    rw [herase]

/-- C10 witness: the round trip on a one-activity store with no
participants. -/
theorem C10_signup_unregister_roundtrip_witness :
    ∃ s' s'' m₁ m₂,
      signup_for_activity ⟨[⟨"A", "d", "t", 3⟩], [], 0⟩ "A" "e" = .ok (s', m₁) ∧
      unregister_from_activity s' "A" "e" = .ok (s'', m₂) ∧
      s'.activities = (⟨[⟨"A", "d", "t", 3⟩], [], 0⟩ : Store).activities ∧
      s''.activities = (⟨[⟨"A", "d", "t", 3⟩], [], 0⟩ : Store).activities ∧
      s''.participants.map (fun p => (p.activity_name, p.email)) =
        (⟨[⟨"A", "d", "t", 3⟩], [], 0⟩ : Store).participants.map
          (fun p => (p.activity_name, p.email)) :=
  C10_signup_unregister_roundtrip ⟨[⟨"A", "d", "t", 3⟩], [], 0⟩ "A" "e"
    (by simp) (by decide) (by decide)

end App
